import Mathlib

/-
Verification development for the youtubemp3convert repository.

The embedding below is a shallow model of src/downloader.py (class
VideoDownloader) together with the configuration it installs.  External
collaborators (the yt-dlp resolver, the ffmpeg subprocess, the hashlib
digest, unicodedata.normalize) are modelled as abstract parameters or as
outcome data, exactly at the boundaries where the Python code consumes
them; everything the Python code itself computes is translated directly.
-/

namespace YoutubeMp3

/-! ### String helpers

Python's `needle in hay` on strings is a contiguous-substring test; we
model strings via their character lists and list infix. -/

/-- Python substring test: the needle occurs contiguously inside the hay. -/
def strContains (hay needle : String) : Bool :=
  decide (needle.toList <:+: hay.toList)

/-- Python `str.lower()`, modelled per character (ASCII case mapping). -/
def pyLower (s : String) : String :=
  String.mk (s.toList.map Char.toLower)

/-- Python `any(p in s for p in ps)`. -/
def strContainsAny (hay : String) (needles : List String) : Bool :=
  needles.any (fun n => strContains hay n)

/-! ### Content filter (`VideoDownloader._ad_filter`, downloader.py 122-138)

An extracted info dictionary, restricted to the keys the filter reads.
A missing key is represented by the default value that the Python
`info_dict.get(key, default)` call supplies. -/

structure InfoDict where
  is_ad : Bool
  ad_flag : Bool
  title : String
  duration : Nat
  channel_id : String
  tags : List String
  live_status : String

/-- Python's `str` rendering of a list of strings (`repr`): each element is
wrapped in single quotes and the elements are joined by ", " inside square
brackets.  Faithful for tags that themselves contain no quote character. -/
def pyStrList (l : List String) : String :=
  let q := (Char.ofNat 39).toString
  "[" ++ String.intercalate ", " (l.map (fun s => q ++ s ++ q)) ++ "]"

/-- Model of `VideoDownloader._ad_filter` (downloader.py 122-138): returns the
rejection message when any of the eight listed indicators fires, `none`
otherwise.  The side effect on the skipped-ads counter is not part of the
match-filter value and is modelled where the counter is consumed. -/
def ad_filter (d : InfoDict) : Option String :=
  if (d.is_ad
      || d.ad_flag
      || strContains (pyLower d.title) "advertisement"
      || strContains (pyLower d.title) "sponsor"
      || decide (d.duration < 10)
      || decide (d.channel_id ∈ (["UCbMScGQ8jGRogxS8PyCM8uA"] : List String))
      || (["ad", "advertisement", "sponsor"] : List String).any
           (fun tag => strContains (pyLower (pyStrList d.tags)) tag)
      || decide (d.live_status = "is_live"))
  then some "Ad content detected and skipped"
  else none

/-- The rejection condition exactly as the specification words it:
the tag clause is a genuine set intersection between the item's tag set
and the set of flagged tag values. -/
def specFilterRejects (d : InfoDict) : Prop :=
  (d.is_ad = true ∨ d.ad_flag = true)
  ∨ strContains (pyLower d.title) "advertisement" = true
  ∨ strContains (pyLower d.title) "sponsor" = true
  ∨ d.duration < 10
  ∨ d.channel_id ∈ (["UCbMScGQ8jGRogxS8PyCM8uA"] : List String)
  ∨ (∃ t ∈ d.tags, t ∈ (["ad", "advertisement", "sponsor"] : List String))
  ∨ d.live_status = "is_live"

instance (d : InfoDict) : Decidable (specFilterRejects d) := by
  unfold specFilterRejects; infer_instance

/-- The rejection condition as the code actually computes it: the tag
clause asks whether one of the flagged tag values occurs as a substring
of the lower-cased Python string rendering of the whole tag list. -/
def codeFilterRejects (d : InfoDict) : Prop :=
  (d.is_ad = true ∨ d.ad_flag = true)
  ∨ strContains (pyLower d.title) "advertisement" = true
  ∨ strContains (pyLower d.title) "sponsor" = true
  ∨ d.duration < 10
  ∨ d.channel_id ∈ (["UCbMScGQ8jGRogxS8PyCM8uA"] : List String)
  ∨ (∃ t ∈ (["ad", "advertisement", "sponsor"] : List String),
       strContains (pyLower (pyStrList d.tags)) t = true)
  ∨ d.live_status = "is_live"

instance (d : InfoDict) : Decidable (codeFilterRejects d) := by
  unfold codeFilterRejects; infer_instance

/-! ### Retry loop (`VideoDownloader._download_with_retry`, downloader.py 294-358)

One fetch attempt (`ydl.extract_info(url, download=True)` inside the two
nested try blocks) is abstracted by its observable outcome. -/

/-- Outcome of one resolver fetch attempt, as the surrounding Python code
observes it: a returned info dict (with or without a title key), a `None`
info dict, a raised `yt_dlp.utils.DownloadError` carrying a message, or
any other raised exception. -/
inductive FetchOutcome where
  | success (hasTitle : Bool)
  | noInfo
  | dlError (msg : String)
  | otherError
deriving DecidableEq

/-- What the body of one loop iteration does with its fetch outcome:
either the function returns a value right away (possibly bumping the
skipped-ads counter), or control reaches the retry/backoff logic. -/
inductive AttemptOutcome where
  | ret (b : Bool) (adInc : Nat)
  | retryable
deriving DecidableEq

/-- Merged handler chain of one iteration of the retry loop
(downloader.py 301-342): the inner `except DownloadError` checks run
first (private/sign in/premium/members only, then copyright, then
advertisement); an unmatched `DownloadError` is re-raised into the outer
handler which checks video unavailable and then (unreachably, because the
inner handler already returned on them) private video / sign in; anything
still unmatched, and any non-`DownloadError` exception, falls through to
the backoff logic.  Messages are lower-cased first (`str(e).lower()`). -/
def attemptClass (o : FetchOutcome) : AttemptOutcome :=
  match o with
  | .success true => .ret true 0
  | .success false => .ret false 0
  | .noInfo => .ret false 0
  | .dlError rawMsg =>
    let m := pyLower rawMsg
    if strContainsAny m ["private video", "sign in", "premium", "members only"] then
      .ret false 0
    else if strContains m "copyright" then
      .ret false 0
    else if strContains m "advertisement" then
      .ret true 1
    else if strContains m "video unavailable" then
      .ret false 0
    else if strContains m "private video" || strContains m "sign in" then
      .ret false 0
    else
      .retryable
  | .otherError => .retryable

/-- Observable result of `_download_with_retry`: the returned value
(`none` models Python's implicit `None` when the loop body never runs),
the number of fetch attempts performed, the backoff delays slept in
order, and the final value of the skipped-ads counter (reset to zero on
entry). -/
structure RetryResult where
  ok : Option Bool
  attempts : Nat
  delays : List Nat
  adsSkipped : Nat
deriving DecidableEq

/-- The `for attempt in range(self.max_retries)` loop, one constructor
case per remaining iteration count.  `delaysRev` accumulates the slept
backoff delays in reverse. -/
def retryGo (mr : Nat) (fetch : Nat → FetchOutcome) :
    Nat → Nat → Nat → List Nat → RetryResult
  | 0, attempt, ads, delaysRev => ⟨none, attempt, delaysRev.reverse, ads⟩
  | r + 1, attempt, ads, delaysRev =>
    match attemptClass (fetch attempt) with
    | .ret b inc => ⟨some b, attempt + 1, delaysRev.reverse, ads + inc⟩
    | .retryable =>
      if attempt < mr - 1 then
        retryGo mr fetch r (attempt + 1) ads (2 ^ attempt :: delaysRev)
      else
        ⟨some false, attempt + 1, delaysRev.reverse, ads⟩

set_option linter.unusedVariables false in
/-- Model of `VideoDownloader._download_with_retry` (downloader.py 294-358).
The `is_playlist` argument is accepted and, exactly as in the source,
never used. -/
def download_with_retry (mr : Nat) (fetch : Nat → FetchOutcome)
    (is_playlist : Bool) : RetryResult :=
  retryGo mr fetch mr 0 0 []

/-- Model of `VideoDownloader.download_single` (downloader.py 360-363). -/
def download_single (mr : Nat) (fetch : Nat → FetchOutcome) : RetryResult :=
  download_with_retry mr fetch false

/-- Model of `VideoDownloader.download_playlist` (downloader.py 365-368). -/
def download_playlist (mr : Nat) (fetch : Nat → FetchOutcome) : RetryResult :=
  download_with_retry mr fetch true

/-! ### Content digest (`VideoDownloader._get_file_hash`, downloader.py 140-146)

The Python code feeds the file to `hashlib.md5` in 4096-byte chunks via
`iter(lambda: f.read(4096), b"")` and takes `hexdigest()` at the end.
The md5 context is modelled by the byte sequence accumulated so far
(`update` appends; hashlib's documented contract is that the digest
depends only on the concatenation of all bytes fed), and the external
finalisation `hexdigest` is an arbitrary function of that sequence. -/

/-- Successive `f.read(bs)` reads of a file with the given byte content:
the chunks handed to the digest loop, in order.  A read size of zero
immediately returns the empty sentinel, so no chunks are produced. -/
def readChunks (bs : Nat) (content : List Nat) : List (List Nat) :=
  if _h : content = [] ∨ bs = 0 then []
  else content.take bs :: readChunks bs (content.drop bs)
termination_by content.length
decreasing_by
  simp only [not_or] at _h
  rcases _h with ⟨hc, hbs⟩
  simpa [List.length_drop] using
    Nat.sub_lt (List.length_pos.mpr hc) (Nat.pos_of_ne_zero hbs)

/-- Model of `VideoDownloader._get_file_hash` at an arbitrary read buffer size:
start from the empty md5 context, `update` with each chunk read, then
finalise with `hexdigest`. -/
def get_file_hash_bs (hexdigest : List Nat → List Nat) (bs : Nat)
    (content : List Nat) : List Nat :=
  hexdigest ((readChunks bs content).foldl (fun ctx chunk => ctx ++ chunk) [])

/-- Model of `VideoDownloader._get_file_hash` (downloader.py 140-146): the read
buffer size is the literal 4096. -/
def get_file_hash (hexdigest : List Nat → List Nat) (content : List Nat) :
    List Nat :=
  get_file_hash_bs hexdigest 4096 content

/-! ### Duplicate detection (`VideoDownloader._is_duplicate`, downloader.py
148-160) and the accepted-output step of `_download_hook` (265-272)

A directory is a list of named files in natural listing order; the file
created by the current item is the last entry. -/

structure FSFile where
  name : String
  content : List Nat
deriving DecidableEq

/-- Membership of the `output_dir.glob` pattern `*.mp3`. -/
def isMp3Name (n : String) : Bool :=
  decide (".mp3".toList <:+ n.toList)

/-- Model of `VideoDownloader._is_duplicate`: a missing file is never a duplicate;
otherwise the candidate's digest is compared against the digest of every
`*.mp3` file of the output directory other than the candidate itself. -/
def is_duplicate (hexdigest : List Nat → List Nat) (dir : List FSFile)
    (fp : FSFile) : Bool :=
  if dir.all (fun g => g.name != fp.name) then false
  else
    (dir.filter (fun g => isMp3Name g.name)).any
      (fun g => g.name != fp.name
        && (get_file_hash hexdigest g.content == get_file_hash hexdigest fp.content))

/-- The accepted-output step of `_download_hook` for a finished `.mp3`
file that exists (downloader.py 265-272): a detected duplicate is
unlinked, otherwise the directory is left as it is and the file is
recorded as successfully processed. -/
def process_final_mp3 (hexdigest : List Nat → List Nat) (dir : List FSFile)
    (fp : FSFile) : List FSFile :=
  if is_duplicate hexdigest dir fp then dir.filter (fun g => g.name != fp.name)
  else dir

/-- The deduplication invariant of the accepted-output set: no two
distinct `*.mp3` files of the directory share a content digest. -/
def dedupInvariant (hexdigest : List Nat → List Nat) (dir : List FSFile) : Prop :=
  (dir.filter (fun g => isMp3Name g.name)).Pairwise
    (fun a b => get_file_hash hexdigest a.content ≠ get_file_hash hexdigest b.content)

/-! ### `finished` branch of `VideoDownloader._download_hook`
(downloader.py 230-288)

The hook's behaviour on a finished download is determined by: whether the
delivered file already has the `.mp3` suffix, whether the local ffmpeg
conversion succeeds, whether the info dict carries a non-empty
`webpage_url`, whether the online conversion succeeds, and whether the
final `.mp3` file is a duplicate.  We record the externally visible
actions in order. -/

inductive HookEvent where
  /-- `self._convert_to_mp3(filepath, output_path)` invoked (local ffmpeg). -/
  | localConv
  /-- `self.online_converter.convert_to_mp3(original_url, output_path)` invoked. -/
  | remoteConv
  /-- `shutil.move` of the file into the `unprocessed` quarantine directory. -/
  | quarantineMove
  /-- `filepath.unlink()` of a detected duplicate `.mp3`. -/
  | dupDelete
  /-- `self.downloaded_files.add(filepath)`: the file joins the accepted set. -/
  | accept
deriving DecidableEq

/-- Lines 265-272: the terminal handling of an existing `.mp3` file. -/
def dedupTail (isDup : Bool) : List HookEvent :=
  if isDup then [.dupDelete] else [.accept]

/-- Event trace of the `status == 'finished'` branch of `_download_hook`
(downloader.py 230-288), for a delivered file that exists and assuming no
filesystem exception is raised.  `isMp3` is `filepath.suffix.lower() ==
'.mp3'` for the delivered file, `localOk` the result of
`_convert_to_mp3`, `url` the `webpage_url` of the info dict (empty when
absent), `onlineOk` the result of the online converter, `isDup` the
duplicate check on the final `.mp3`. -/
def download_hook_finished (isMp3 localOk : Bool) (url : String)
    (onlineOk isDup : Bool) : List HookEvent :=
  if isMp3 then
    -- No conversion needed; fall through to the final-file processing.
    dedupTail isDup
  else if localOk then
    -- Local conversion succeeded: original deleted, filepath now `.mp3`.
    .localConv :: dedupTail isDup
  else if !url.isEmpty then
    if onlineOk then
      -- Online fallback succeeded: original deleted, filepath now `.mp3`.
      .localConv :: .remoteConv :: dedupTail isDup
    else
      -- Online fallback failed: raw file moved to `unprocessed`; the
      -- moved-away path no longer exists, so nothing further happens.
      [.localConv, .remoteConv, .quarantineMove]
  else
    -- No source URL: the fallback block is skipped entirely and the
    -- still-existing non-mp3 file is moved to `unprocessed` by the
    -- final-file processing (lines 273-277).
    [.localConv, .quarantineMove]

/-! ### The yt-dlp configuration (`VideoDownloader._configure_yt_dlp`,
downloader.py 80-120), restricted to the scalar options. -/

structure YdlOpts where
  format : String
  writethumbnail : Bool
  verbose : Bool
  ignoreerrors : Bool
  extract_flat : Bool
  force_progress : Bool
  noplaylist : Bool
  retries : Nat
  fragment_retries : Nat
  skip_unavailable_fragments : Bool
  continuedl : Bool
  no_check_formats : Bool
  socket_timeout : Nat
  extractor_retries : Nat
  prefer_ffmpeg : Bool
  keepvideo : Bool

/-- The literal option values installed by `_configure_yt_dlp`. -/
def ydl_opts : YdlOpts where
  format := "bestaudio[acodec=mp3]/bestaudio[acodec=m4a]/bestaudio[ext=webm]/bestaudio/best"
  writethumbnail := false
  verbose := true
  ignoreerrors := false
  extract_flat := false
  force_progress := true
  noplaylist := true
  retries := 5
  fragment_retries := 5
  skip_unavailable_fragments := true
  continuedl := true
  no_check_formats := false
  socket_timeout := 30
  extractor_retries := 5
  prefer_ffmpeg := true
  keepvideo := false

/-! ### Filename sanitizer (`VideoDownloader._sanitize_filename`,
downloader.py 43-78)

The sanitizer operates on character lists.  `unicodedata.normalize('NFKC', .)`
is an external library call and is a parameter of the model.  The regex
character classes are modelled on their ASCII content: the word class is
alphanumerics plus underscore, the whitespace class is the six ASCII
whitespace characters. -/

/-- The character class of the quote-stripping regex on line 63:
apostrophe, the ASCII double quote, and the fullwidth double quote
U+FF02. -/
def isQuoteChar (c : Char) : Bool :=
  c == Char.ofNat 39 || c == Char.ofNat 34 || c == Char.ofNat 0xFF02

/-- Python's whitespace class (ASCII part): space, tab, newline, carriage
return, vertical tab, form feed. -/
def isPySpace (c : Char) : Bool :=
  c == ' ' || c == Char.ofNat 9 || c == Char.ofNat 10 || c == Char.ofNat 13
    || c == Char.ofNat 11 || c == Char.ofNat 12

/-- The regex word class (ASCII part): alphanumerics and underscore. -/
def isWordChar (c : Char) : Bool :=
  c.isAlphanum || c == '_'

/-- A hyphen or an underscore, the class of the run-collapsing regex on
line 69. -/
def isDashUnd (c : Char) : Bool :=
  c == '-' || c == '_'

/-- Removing a leading run and a trailing run of `p`-characters: the
effect of the anchored regex substitutions and of `str.strip`. -/
def stripEnds (p : Char → Bool) (l : List Char) : List Char :=
  ((l.dropWhile p).reverse.dropWhile p).reverse

/-- Replacing every maximal run of `p`-characters by the single
replacement character `r`: the effect of `re.sub(class+, r, .)`.  The
flag records whether the previous character belonged to a run. -/
def collapseRuns (p : Char → Bool) (r : Char) : Bool → List Char → List Char
  | _, [] => []
  | inRun, c :: cs =>
    if p c then
      if inRun then collapseRuns p r true cs
      else r :: collapseRuns p r true cs
    else c :: collapseRuns p r false cs

/-- Model of `os.path.splitext` for a bare file name (no directory separators):
split at the last dot, unless every character before it is itself a dot
(so a leading-dot name has no extension). -/
def splitext (cs : List Char) : List Char × List Char :=
  let dotRev := cs.reverse.findIdx (· == '.')
  if dotRev < cs.length then
    let dotIdx := cs.length - 1 - dotRev
    if (cs.take dotIdx).all (· == '.') then (cs, [])
    else (cs.take dotIdx, cs.drop dotIdx)
  else (cs, [])

/-- Lines 57-71 of `_sanitize_filename`: the sanitization pipeline
applied to the stem, before the empty-name default of lines 73-75. -/
def sanitize_core (nfkc : List Char → List Char) (stem : List Char) : List Char :=
  let n1 := nfkc stem
  let n2 := stripEnds isQuoteChar n1
  let n3 := n2.filter (fun c => isWordChar c || isPySpace c || c == '-')
  let n4 := collapseRuns isPySpace '_' false (stripEnds isPySpace n3)
  let n5 := collapseRuns isDashUnd '_' false n4
  stripEnds (fun c => c == '_') n5

/-- Lines 57-75: the sanitized stem, with the fixed default name
substituted when the pipeline empties the stem. -/
def sanitize_stem (nfkc : List Char → List Char) (stem : List Char) : List Char :=
  let n := sanitize_core nfkc stem
  if n.isEmpty then "audio".toList else n

/-- Model of `VideoDownloader._sanitize_filename` (downloader.py 43-78): split off
the extension, sanitize the stem only, re-append the extension verbatim. -/
def sanitize_filename (nfkc : List Char → List Char) (filename : List Char) :
    List Char :=
  sanitize_stem nfkc (splitext filename).1 ++ (splitext filename).2

/-! ## Supporting lemmas -/

/-- Folding the chunked reads back together recovers the whole content,
for any positive read buffer size. -/
lemma readChunks_foldl (bs : Nat) (hbs : 0 < bs) :
    ∀ (n : Nat) (content : List Nat), content.length ≤ n → ∀ acc : List Nat,
      (readChunks bs content).foldl (fun ctx chunk => ctx ++ chunk) acc
        = acc ++ content := by
  intro n
  induction n with
  | zero =>
    intro content hlen acc
    have hc : content = [] := List.length_eq_zero.mp (Nat.le_zero.mp hlen)
    subst hc
    rw [readChunks]
    simp
  | succ n ih =>
    intro content hlen acc
    rcases content with _ | ⟨c, cs⟩
    · rw [readChunks]; simp
    · rw [readChunks]
      have hcond : ¬(c :: cs = [] ∨ bs = 0) := by
        simp [Nat.pos_iff_ne_zero.mp hbs]
      rw [dif_neg hcond]
      rw [List.foldl_cons]
      have hdrop : ((c :: cs).drop bs).length ≤ n := by
        simp only [List.length_drop, List.length_cons]
        simp only [List.length_cons] at hlen
        omega
      rw [ih ((c :: cs).drop bs) hdrop]
      rw [List.append_assoc, List.take_append_drop]

/-- Claim C9: computing the digest by streaming the content in fixed-size
chunks (4096 bytes, or any positive buffer size) feeds the md5 context
exactly the whole content, so the resulting digest equals the digest of
the entire content hashed at once. -/
theorem digest_buffer_size_independent (hexdigest : List Nat → List Nat)
    (content : List Nat) (bs : Nat) (hbs : 0 < bs) :
    get_file_hash_bs hexdigest bs content = hexdigest content
    ∧ get_file_hash hexdigest content = hexdigest content := by
  constructor
  · unfold get_file_hash_bs
    rw [readChunks_foldl bs hbs content.length content (Nat.le_refl _) []]
    rfl
  · unfold get_file_hash get_file_hash_bs
    rw [readChunks_foldl 4096 (by omega) content.length content (Nat.le_refl _) []]
    rfl

/-- Witness for claim C9 at buffer size 1 and the identity finaliser. -/
theorem digest_buffer_size_independent_witness :
    0 < 1 ∧ get_file_hash_bs (fun l => l) 1 [3, 1, 4] = [3, 1, 4] :=
  ⟨Nat.one_pos, (digest_buffer_size_independent (fun l => l) [3, 1, 4] 1 Nat.one_pos).1⟩

/-- If the first `j` attempts all fall through to the backoff logic and
`j` is still within the retry budget, the loop reaches attempt `j` having
slept the backoff delays `2^0, …, 2^(j-1)`. -/
lemma retryGo_reach (mr : Nat) (fetch : Nat → FetchOutcome) (j : Nat)
    (hj : j < mr) (hprev : ∀ i, i < j → attemptClass (fetch i) = .retryable) :
    retryGo mr fetch mr 0 0 []
      = retryGo mr fetch (mr - j) j 0 (((List.range j).map (fun i => 2 ^ i)).reverse) := by
  induction j with
  | zero => simp
  | succ j ih =>
    have hjmr : j < mr := Nat.lt_of_succ_lt hj
    rw [ih hjmr (fun i hi => hprev i (Nat.lt_succ_of_lt hi))]
    have hsub : mr - j = (mr - (j + 1)) + 1 := by omega
    rw [hsub, retryGo]
    rw [hprev j (Nat.lt_succ_self j)]
    have hlt : j < mr - 1 := by omega
    rw [if_pos hlt]
    rw [List.range_succ, List.map_append, List.reverse_append]
    rfl

/-- Claim C3: with `maxRetries = 3` and every fetch attempt failing with
a transient (retry-eligible) error, the retry loop performs exactly 3
attempts, sleeps backoff delays of 2^0 = 1 and 2^1 = 2 seconds between
consecutive attempts (none after the final one), and returns failure. -/
theorem retry_bound_three_attempts (fetch : Nat → FetchOutcome) (pl : Bool)
    (htrans : ∀ i, attemptClass (fetch i) = .retryable) :
    download_with_retry 3 fetch pl = ⟨some false, 3, [1, 2], 0⟩ := by
  unfold download_with_retry
  rw [retryGo_reach 3 fetch 2 (by omega) (fun i _ => htrans i)]
  rw [show (3 : Nat) - 2 = 0 + 1 from rfl, retryGo, htrans 2]
  rfl

/-- Witness for claim C3: a fetch that raises a non-`DownloadError`
exception on every attempt. -/
theorem retry_bound_three_attempts_witness :
    (∀ i : Nat, attemptClass ((fun _ => FetchOutcome.otherError) i) = .retryable)
    ∧ download_with_retry 3 (fun _ => FetchOutcome.otherError) false
        = ⟨some false, 3, [1, 2], 0⟩ :=
  ⟨fun _ => rfl,
   retry_bound_three_attempts (fun _ => FetchOutcome.otherError) false (fun _ => rfl)⟩

/-- The specification's permanent-skip classification of a fetch error
message: resource private, requires sign-in, members-only/premium,
copyrighted, or unavailable, matched the way the code matches messages
(lower-cased substring tests). -/
def specPermanentMsg (msg : String) : Prop :=
  strContainsAny (pyLower msg)
    ["private video", "sign in", "premium", "members only", "copyright",
     "video unavailable"] = true

/-- The subset of permanently-classified messages on which the code
actually returns failure: the first five markers always do; the
`video unavailable` marker does only when the message does not also
contain `advertisement`, because the advertisement check runs first. -/
def permFailMsg (msg : String) : Prop :=
  strContainsAny (pyLower msg)
      ["private video", "sign in", "premium", "members only"] = true
  ∨ strContains (pyLower msg) "copyright" = true
  ∨ (strContains (pyLower msg) "video unavailable" = true
      ∧ strContains (pyLower msg) "advertisement" = false)

/-- The messages the code treats as a skipped advertisement: message
contains `advertisement` and none of the markers checked before it. -/
def adSkipMsg (msg : String) : Prop :=
  strContains (pyLower msg) "advertisement" = true
  ∧ strContainsAny (pyLower msg)
      ["private video", "sign in", "premium", "members only"] = false
  ∧ strContains (pyLower msg) "copyright" = false

/-- A permanently-failing message makes one loop iteration return
`False` at once. -/
lemma attemptClass_permFail (msg : String) (h : permFailMsg msg) :
    attemptClass (.dlError msg) = .ret false 0 := by
  unfold attemptClass
  rcases h with h1 | h2 | ⟨h3, h4⟩
  · simp only [h1, if_true]
  · by_cases hA : strContainsAny (pyLower msg)
        ["private video", "sign in", "premium", "members only"] = true
    · simp [hA]
    · simp [hA, h2]
  · by_cases hA : strContainsAny (pyLower msg)
        ["private video", "sign in", "premium", "members only"] = true
    · simp [hA]
    · by_cases hC : strContains (pyLower msg) "copyright" = true
      · simp [hA, hC]
      · simp [hA, hC, h3, h4]

/-- An advertisement message (not preempted by an earlier marker) makes
one loop iteration return `True` and bump the skipped-ads counter. -/
lemma attemptClass_adSkip (msg : String) (h : adSkipMsg msg) :
    attemptClass (.dlError msg) = .ret true 1 := by
  unfold attemptClass
  rcases h with ⟨h1, h2, h3⟩
  simp [h1, h2, h3]

/-- Claim C5 (amended): a fetch attempt raising an error whose message
matches one of the permanent markers — restricted to the cases where the
advertisement check does not preempt the `video unavailable` check —
makes the download function return failure immediately after that
attempt: no further attempts, no backoff delay after it, and the
skipped-ads counter untouched. -/
theorem permanent_error_immediate_failure (fetch : Nat → FetchOutcome)
    (mr j : Nat) (msg : String) (pl : Bool) (hj : j < mr)
    (hprev : ∀ i, i < j → attemptClass (fetch i) = .retryable)
    (hmsg : fetch j = .dlError msg) (hperm : permFailMsg msg) :
    download_with_retry mr fetch pl
      = ⟨some false, j + 1, (List.range j).map (fun i => 2 ^ i), 0⟩ := by
  unfold download_with_retry
  rw [retryGo_reach mr fetch j hj hprev]
  have hsub : mr - j = (mr - (j + 1)) + 1 := by omega
  rw [hsub, retryGo, hmsg, attemptClass_permFail msg hperm]
  simp

/-- Witness for claim C5 (amended): a transient first attempt followed by
a premium-content fault on the second attempt. -/
theorem permanent_error_immediate_failure_witness :
    (1 < 3 ∧ permFailMsg "This video requires Premium membership")
    ∧ download_with_retry 3
        (fun i => if i = 0 then FetchOutcome.otherError
                  else FetchOutcome.dlError "This video requires Premium membership")
        false
      = ⟨some false, 2, [1], 0⟩ :=
  ⟨⟨by omega, by unfold permFailMsg; left; decide⟩,
   permanent_error_immediate_failure
     (fun i => if i = 0 then FetchOutcome.otherError
               else FetchOutcome.dlError "This video requires Premium membership")
     3 1 "This video requires Premium membership" false (by omega)
     (fun i hi => by
       have h0 : i = 0 := by omega
       rw [h0]; rfl)
     rfl (by unfold permFailMsg; left; decide)⟩

/-- Counterexample to claim C5 as stated: the message below is classified
as permanent by the specification (it names an unavailable video), yet
the download function returns success for it, because the advertisement
check runs before the `video unavailable` check. -/
theorem permanent_unavailable_ad_counterexample :
    specPermanentMsg "video unavailable: detected advertisement"
    ∧ (download_with_retry 3
        (fun _ => FetchOutcome.dlError "video unavailable: detected advertisement")
        false).ok = some true
    ∧ (download_with_retry 3
        (fun _ => FetchOutcome.dlError "video unavailable: detected advertisement")
        false).ok ≠ some false := by
  refine ⟨by unfold specPermanentMsg; decide, by decide, by decide⟩

/-- Claim C7 (amended): a fetch attempt raising an error whose message
contains `advertisement` — and none of the markers checked before it
(private video, sign in, premium, members only, copyright) — makes the
download function return success immediately, with the skipped-ads
counter incremented by exactly one from its reset value. -/
theorem ad_error_treated_as_success (fetch : Nat → FetchOutcome)
    (mr j : Nat) (msg : String) (pl : Bool) (hj : j < mr)
    (hprev : ∀ i, i < j → attemptClass (fetch i) = .retryable)
    (hmsg : fetch j = .dlError msg) (had : adSkipMsg msg) :
    download_with_retry mr fetch pl
      = ⟨some true, j + 1, (List.range j).map (fun i => 2 ^ i), 1⟩ := by
  unfold download_with_retry
  rw [retryGo_reach mr fetch j hj hprev]
  have hsub : mr - j = (mr - (j + 1)) + 1 := by omega
  rw [hsub, retryGo, hmsg, attemptClass_adSkip msg had]
  simp

/-- Witness for claim C7 (amended): an advertisement fault on the very
first attempt. -/
theorem ad_error_treated_as_success_witness :
    (0 < 3 ∧ adSkipMsg "detected advertisement segment")
    ∧ download_with_retry 3
        (fun _ => FetchOutcome.dlError "detected advertisement segment") false
      = ⟨some true, 1, [], 1⟩ :=
  ⟨⟨by omega, by unfold adSkipMsg; refine ⟨by decide, by decide, by decide⟩⟩,
   ad_error_treated_as_success
     (fun _ => FetchOutcome.dlError "detected advertisement segment")
     3 0 "detected advertisement segment" false (by omega)
     (fun i hi => absurd hi (Nat.not_lt_zero i)) rfl
     ⟨by decide, by decide, by decide⟩⟩

/-- Counterexample to claim C7 as stated: this message contains
`advertisement`, yet the download function classifies it by the earlier
`sign in` check, returns failure, and leaves the skipped-ad counter at
zero. -/
theorem ad_error_preempted_counterexample :
    strContains (pyLower "sign in to view this advertisement") "advertisement" = true
    ∧ download_with_retry 3
        (fun _ => FetchOutcome.dlError "sign in to view this advertisement") false
      = ⟨some false, 1, [], 0⟩ := by
  refine ⟨by decide, by decide⟩

/-- Claim C6 (the code against the claimed behaviour): the resolver
configuration sets `ignoreerrors = False`, so collection extraction
aborts at the first failing entry, and `noplaylist = True`, so a playlist
URL is not expanded at all; `download_playlist` is moreover identical to
`download_single` for every input because its `is_playlist` flag is
unused.  On the failing input — a collection whose second item raises a
private-video fault, which with this configuration surfaces as one
`DownloadError` for the whole call — the single call returns failure
after one attempt, so the remaining items are never processed. -/
theorem playlist_single_item_abort :
    ydl_opts.ignoreerrors = false
    ∧ ydl_opts.noplaylist = true
    ∧ (∀ (mr : Nat) (fetch : Nat → FetchOutcome),
        download_playlist mr fetch = download_single mr fetch)
    ∧ download_playlist 3
        (fun _ => FetchOutcome.dlError
          "ERROR: Private video. Sign in if you have been granted access to this video")
      = ⟨some false, 1, [], 0⟩ :=
  ⟨rfl, rfl, fun _ _ => rfl, by decide⟩

/-- Claim C2 (amended): the content filter rejects a candidate if and
only if: its explicit ad/sponsor flag is set; its lower-cased title
contains `advertisement` or `sponsor`; its duration is under 10 seconds;
its channel identifier is in the configured blocklist; one of the strings
`ad`, `advertisement`, `sponsor` occurs as a substring of the lower-cased
Python string rendering of its tag list; or its live-stream status is
active. -/
theorem ad_filter_rejects_iff (d : InfoDict) :
    (ad_filter d).isSome = true ↔ codeFilterRejects d := by
  unfold ad_filter codeFilterRejects
  split
  case isTrue h =>
    simp only [Option.isSome_some, true_iff]
    simp only [Bool.or_eq_true, decide_eq_true_eq, List.any_eq_true] at h
    itauto
  case isFalse h =>
    simp only [Option.isSome_none, Bool.false_eq_true, false_iff]
    simp only [Bool.or_eq_true, decide_eq_true_eq, List.any_eq_true] at h
    itauto

/-- Counterexample to claim C2 as stated: a ten-minute music item whose
only tag is `radio` satisfies none of the specification's six rejection
conditions — in particular its tag set is disjoint from
{ad, advertisement, sponsor} — yet the filter rejects it, because the
code substring-matches `ad` against the rendered tag list `['radio']`. -/
theorem ad_filter_taglist_counterexample :
    (ad_filter ⟨false, false, "music", 600, "chan", ["radio"], ""⟩).isSome = true
    ∧ ¬ specFilterRejects ⟨false, false, "music", 600, "chan", ["radio"], ""⟩ := by
  refine ⟨by decide, by decide⟩

/-- Claim C4 (amended): for a downloaded item delivered in a non-mp3
format whose local encoder invocation fails and whose source URL is
available (non-empty), the remote encoding service is attempted directly
after the local attempt and before any quarantine move, and the file is
quarantined exactly when the remote attempt also fails. -/
theorem local_fail_remote_before_quarantine (url : String)
    (onlineOk isDup : Bool) (hurl : url.isEmpty = false) :
    (∃ rest, download_hook_finished false false url onlineOk isDup
        = HookEvent.localConv :: HookEvent.remoteConv :: rest)
    ∧ (HookEvent.quarantineMove ∈ download_hook_finished false false url onlineOk isDup
        ↔ onlineOk = false) := by
  unfold download_hook_finished
  simp only [if_neg (by simp : ¬(false = true)), hurl]
  rcases onlineOk with _ | _
  · simp
  · rcases isDup with _ | _ <;> simp [dedupTail]

/-- Witness for claim C4 (amended): non-empty source URL, failing online
conversion. -/
theorem local_fail_remote_before_quarantine_witness :
    ("u".isEmpty = false)
    ∧ ((∃ rest, download_hook_finished false false "u" false false
          = HookEvent.localConv :: HookEvent.remoteConv :: rest)
        ∧ (HookEvent.quarantineMove ∈ download_hook_finished false false "u" false false
            ↔ false = false)) :=
  ⟨rfl, local_fail_remote_before_quarantine "u" false false rfl⟩

/-- Counterexample to claim C4 as stated: when the info dict carries no
source URL, a file whose local conversion failed is moved straight to
quarantine and the remote encoding service is never attempted. -/
theorem quarantine_without_remote_counterexample :
    HookEvent.quarantineMove ∈ download_hook_finished false false "" true false
    ∧ HookEvent.remoteConv ∉ download_hook_finished false false "" true false := by
  refine ⟨by decide, by decide⟩

/-- Characterisation of `_is_duplicate` for a directory consisting of the
earlier files followed by the freshly produced file: it fires exactly
when some earlier `*.mp3` file has the same digest. -/
lemma is_duplicate_append (hexdigest : List Nat → List Nat) (old : List FSFile)
    (fp : FSFile) (hfresh : ∀ g ∈ old, g.name ≠ fp.name) :
    (is_duplicate hexdigest (old ++ [fp]) fp = true
      ↔ ∃ g ∈ old, isMp3Name g.name = true
          ∧ get_file_hash hexdigest g.content = get_file_hash hexdigest fp.content) := by
  unfold is_duplicate
  have hex : (old ++ [fp]).all (fun g => g.name != fp.name) = false := by
    simp [List.all_append]
  rw [hex]
  simp only [Bool.false_eq_true, if_false, List.filter_append, List.any_append,
    Bool.or_eq_true, List.any_eq_true, List.mem_filter, Bool.and_eq_true,
    bne_iff_ne, ne_eq, beq_iff_eq]
  constructor
  · rintro (⟨g, ⟨hg, hmp3⟩, _, hhash⟩ | ⟨g, ⟨hg, _⟩, hne, _⟩)
    · exact ⟨g, hg, hmp3, hhash⟩
    · simp only [List.mem_singleton] at hg
      exact absurd (congrArg FSFile.name hg) hne
  · rintro ⟨g, hg, hmp3, hhash⟩
    exact Or.inl ⟨g, ⟨hg, hmp3⟩, hfresh g hg, hhash⟩

/-- Claim C1: processing a freshly produced `*.mp3` file through the
duplicate check preserves the deduplication invariant — no two distinct
`*.mp3` files of the output directory share a content digest — and when
the new file's digest equals that of an earlier accepted output, the new
file is deleted and the earlier files are all retained unchanged. -/
theorem dedup_invariant_preserved (hexdigest : List Nat → List Nat)
    (old : List FSFile) (fp : FSFile)
    (hmp3 : isMp3Name fp.name = true)
    (hfresh : ∀ g ∈ old, g.name ≠ fp.name)
    (hinv : dedupInvariant hexdigest old) :
    dedupInvariant hexdigest (process_final_mp3 hexdigest (old ++ [fp]) fp)
    ∧ ((∃ g ∈ old, isMp3Name g.name = true
          ∧ get_file_hash hexdigest g.content = get_file_hash hexdigest fp.content)
        → process_final_mp3 hexdigest (old ++ [fp]) fp = old) := by
  have hold_filter : old.filter (fun g => g.name != fp.name) = old :=
    List.filter_eq_self.mpr (fun g hg => by
      simp only [bne_iff_ne, ne_eq]
      exact hfresh g hg)
  by_cases hdup : is_duplicate hexdigest (old ++ [fp]) fp = true
  · have hproc : process_final_mp3 hexdigest (old ++ [fp]) fp = old := by
      unfold process_final_mp3
      rw [if_pos hdup, List.filter_append, hold_filter]
      simp
    refine ⟨?_, fun _ => hproc⟩
    rw [hproc]
    exact hinv
  · have hproc : process_final_mp3 hexdigest (old ++ [fp]) fp = old ++ [fp] := by
      unfold process_final_mp3
      rw [if_neg hdup]
    refine ⟨?_, fun hex => absurd ((is_duplicate_append hexdigest old fp hfresh).mpr hex) hdup⟩
    rw [hproc]
    unfold dedupInvariant
    have hfpf : List.filter (fun g => isMp3Name g.name) [fp] = [fp] := by
      simp [hmp3]
    rw [List.filter_append, hfpf, List.pairwise_append]
    refine ⟨hinv, List.pairwise_singleton _ _, ?_⟩
    intro a ha b hb
    rw [List.mem_singleton] at hb
    rw [hb]
    simp only [List.mem_filter, Bool.and_eq_true] at ha
    intro heq
    exact hdup ((is_duplicate_append hexdigest old fp hfresh).mpr
      ⟨a, ha.1, ha.2, heq⟩)

/-- Witness for claim C1: one earlier accepted output, a fresh file whose
digest (under the constant digest function) collides with it, so the
fresh file is removed and the directory is unchanged. -/
theorem dedup_invariant_preserved_witness :
    (isMp3Name "c.mp3" = true
      ∧ (∀ g ∈ [(⟨"a.mp3", [1]⟩ : FSFile)], g.name ≠ "c.mp3")
      ∧ dedupInvariant (fun _ => []) [(⟨"a.mp3", [1]⟩ : FSFile)])
    ∧ (dedupInvariant (fun _ => [])
        (process_final_mp3 (fun _ => [])
          ([(⟨"a.mp3", [1]⟩ : FSFile)] ++ [(⟨"c.mp3", [3]⟩ : FSFile)]) ⟨"c.mp3", [3]⟩)
      ∧ ((∃ g ∈ [(⟨"a.mp3", [1]⟩ : FSFile)], isMp3Name g.name = true
            ∧ get_file_hash (fun _ => []) g.content
                = get_file_hash (fun _ => []) ([3] : List Nat))
          → process_final_mp3 (fun _ => [])
              ([(⟨"a.mp3", [1]⟩ : FSFile)] ++ [(⟨"c.mp3", [3]⟩ : FSFile)]) ⟨"c.mp3", [3]⟩
            = [(⟨"a.mp3", [1]⟩ : FSFile)])) :=
  ⟨⟨by decide, by decide, by
      unfold dedupInvariant
      decide⟩,
   dedup_invariant_preserved (fun _ => []) [(⟨"a.mp3", [1]⟩ : FSFile)] ⟨"c.mp3", [3]⟩
     (by decide) (by decide) (by unfold dedupInvariant; decide)⟩

/-- Every character emitted by `collapseRuns` is either the replacement
character or a character of the input not in the collapsed class. -/
lemma collapseRuns_mem (p : Char → Bool) (r : Char) (l : List Char) :
    ∀ (b : Bool) (c : Char), c ∈ collapseRuns p r b l
      → c = r ∨ (c ∈ l ∧ p c = false) := by
  induction l with
  | nil => intro b c hc; simp [collapseRuns] at hc
  | cons x xs ih =>
    intro b c hc
    simp only [collapseRuns] at hc
    by_cases hx : p x
    · rw [if_pos hx] at hc
      cases b with
      | true =>
        rw [if_pos rfl] at hc
        rcases ih true c hc with h | ⟨h1, h2⟩
        · exact Or.inl h
        · exact Or.inr ⟨List.mem_cons_of_mem x h1, h2⟩
      | false =>
        rw [if_neg Bool.false_ne_true, List.mem_cons] at hc
        rcases hc with h | hc
        · exact Or.inl h
        · rcases ih true c hc with h | ⟨h1, h2⟩
          · exact Or.inl h
          · exact Or.inr ⟨List.mem_cons_of_mem x h1, h2⟩
    · rw [if_neg hx] at hc
      rw [List.mem_cons] at hc
      rcases hc with h | hc
      · refine Or.inr ⟨?_, ?_⟩
        · rw [h]; exact List.mem_cons_self x xs
        · rw [h]; simpa using hx
      · rcases ih false c hc with h | ⟨h1, h2⟩
        · exact Or.inl h
        · exact Or.inr ⟨List.mem_cons_of_mem x h1, h2⟩

/-- In the in-run state, the next character `collapseRuns` emits is
outside the collapsed class. -/
lemma collapseRuns_head_true (p : Char → Bool) (r : Char) :
    ∀ (l : List Char) (c : Char),
      (collapseRuns p r true l).head? = some c → p c = false := by
  intro l
  induction l with
  | nil => intro c hc; simp [collapseRuns] at hc
  | cons x xs ih =>
    intro c hc
    simp only [collapseRuns] at hc
    by_cases hx : p x
    · rw [if_pos hx] at hc
      exact ih c hc
    · rw [if_neg hx] at hc
      rw [List.head?_cons, Option.some_inj] at hc
      rw [← hc]
      simpa using hx

/-- The output of `collapseRuns` never contains two adjacent characters
of the collapsed class (the replacement character itself being in the
class). -/
lemma collapseRuns_chain (p : Char → Bool) (r : Char) :
    ∀ (l : List Char) (b : Bool),
      List.Chain' (fun a c => ¬(p a = true ∧ p c = true)) (collapseRuns p r b l) := by
  intro l
  induction l with
  | nil => intro b; simp [collapseRuns]
  | cons x xs ih =>
    intro b
    simp only [collapseRuns]
    by_cases hx : p x
    · rw [if_pos hx]
      cases b with
      | true => rw [if_pos rfl]; exact ih true
      | false =>
        rw [if_neg Bool.false_ne_true]
        rw [List.chain'_cons']
        refine ⟨?_, ih true⟩
        intro y hy
        rw [Option.mem_def] at hy
        intro hcon
        rw [collapseRuns_head_true p r xs y hy] at hcon
        exact Bool.false_ne_true hcon.2
    · rw [if_neg hx]
      rw [List.chain'_cons']
      refine ⟨?_, ih false⟩
      intro y _ hcon
      exact hx (hcon.1 ▸ rfl)

/-- A character at the head of a `dropWhile p` result fails `p`. -/
lemma head?_dropWhile_eq_some (p : Char → Bool) (l : List Char) (c : Char)
    (h : (l.dropWhile p).head? = some c) : p c = false := by
  have hmatch := List.head?_dropWhile_not p l
  rw [h] at hmatch
  exact hmatch

/-- The function `stripEnds` only removes characters. -/
lemma stripEnds_sublist (p : Char → Bool) (l : List Char) :
    List.Sublist (stripEnds p l) l := by
  unfold stripEnds
  have h1 : List.Sublist (l.dropWhile p) l := List.dropWhile_sublist p
  have h2 : List.Sublist ((l.dropWhile p).reverse.dropWhile p) (l.dropWhile p).reverse :=
    List.dropWhile_sublist p
  have h3 := h2.reverse
  rw [List.reverse_reverse] at h3
  exact h3.trans h1

lemma stripEnds_subset (p : Char → Bool) (l : List Char) :
    ∀ c ∈ stripEnds p l, c ∈ l :=
  fun _ hc => (stripEnds_sublist p l).subset hc

/-- The head of a `stripEnds p` result fails `p`. -/
lemma stripEnds_head? (p : Char → Bool) (l : List Char) (c : Char)
    (h : (stripEnds p l).head? = some c) : p c = false := by
  unfold stripEnds at h
  rw [← List.getLast?_eq_head?_reverse] at h
  have hsuf : List.IsSuffix ((l.dropWhile p).reverse.dropWhile p)
      ((l.dropWhile p).reverse) := List.dropWhile_suffix p
  rcases hsuf with ⟨t, ht⟩
  have hne : (l.dropWhile p).reverse.dropWhile p ≠ [] := by
    intro hnil
    rw [hnil] at h
    simp at h
  have hlast : ((l.dropWhile p).reverse).getLast? = some c := by
    rw [← ht, List.getLast?_append_of_ne_nil t hne]
    exact h
  rw [List.getLast?_eq_head?_reverse, List.reverse_reverse] at hlast
  exact head?_dropWhile_eq_some p _ c hlast

/-- The last character of a `stripEnds p` result fails `p`. -/
lemma stripEnds_getLast? (p : Char → Bool) (l : List Char) (c : Char)
    (h : (stripEnds p l).getLast? = some c) : p c = false := by
  unfold stripEnds at h
  rw [List.getLast?_eq_head?_reverse, List.reverse_reverse] at h
  exact head?_dropWhile_eq_some p _ c h

/-- Adjacency constraints are preserved by `dropWhile`. -/
lemma chain'_dropWhile {R : Char → Char → Prop} (p : Char → Bool) :
    ∀ l : List Char, List.Chain' R l → List.Chain' R (l.dropWhile p) := by
  intro l
  induction l with
  | nil => intro h; exact h
  | cons x xs ih =>
    intro h
    rw [List.dropWhile_cons]
    by_cases hx : p x
    · rw [if_pos (by simpa using hx)]
      exact ih (List.chain'_cons'.mp h).2
    · rw [if_neg (by simpa using hx)]
      exact h

/-- Adjacency constraints with a symmetric relation are preserved by `stripEnds`. -/
lemma chain'_stripEnds {R : Char → Char → Prop}
    (hsym : ∀ a b, R a b → R b a) (p : Char → Bool) (l : List Char)
    (h : List.Chain' R l) : List.Chain' R (stripEnds p l) := by
  unfold stripEnds
  have h1 := chain'_dropWhile p l h
  have h2 : List.Chain' R (l.dropWhile p).reverse := by
    rw [List.chain'_reverse]
    exact h1.imp hsym
  have h3 := chain'_dropWhile p _ h2
  rw [List.chain'_reverse]
  exact h3.imp hsym

/-- Characters surviving the whole sanitization pipeline are word
characters, and in particular neither whitespace nor hyphens. -/
lemma sanitize_core_mem (nfkc : List Char → List Char) (stem : List Char) :
    ∀ c ∈ sanitize_core nfkc stem,
      isWordChar c = true ∧ isPySpace c = false ∧ c ≠ '-' := by
  intro c hc
  unfold sanitize_core at hc
  have h5 := stripEnds_subset _ _ c hc
  rcases collapseRuns_mem isDashUnd '_' _ false c h5 with h | ⟨h4, hdash⟩
  · subst h
    exact ⟨by decide, by decide, by decide⟩
  · rcases collapseRuns_mem isPySpace '_' _ false c h4 with h | ⟨h3, hsp⟩
    · subst h
      simp [isDashUnd] at hdash
    · have h2 := stripEnds_subset _ _ c h3
      rw [List.mem_filter] at h2
      have hcls := h2.2
      have hnd : (c == '-') = false := by
        simp only [isDashUnd, Bool.or_eq_true] at hdash
        simp only [Bool.or_eq_false_iff] at hdash ⊢
        exact hdash.1
      rw [Bool.or_eq_true, Bool.or_eq_true, hsp, hnd] at hcls
      have hword : isWordChar c = true := by
        rcases hcls with (h | h) | h
        · exact h
        · exact absurd h (by simp)
        · exact absurd h (by simp)
      refine ⟨hword, hsp, ?_⟩
      intro hceq
      rw [hceq] at hnd
      simp at hnd

/-- The sanitization pipeline, with its intermediate lets unfolded. -/
lemma sanitize_core_eq (nfkc : List Char → List Char) (stem : List Char) :
    sanitize_core nfkc stem
      = stripEnds (fun c => c == '_')
          (collapseRuns isDashUnd '_' false
            (collapseRuns isPySpace '_' false
              (stripEnds isPySpace
                ((stripEnds isQuoteChar (nfkc stem)).filter
                  (fun c => isWordChar c || isPySpace c || c == '-'))))) := rfl

/-- Claim C8: the sanitizer splits off the extension, applies the
pipeline — width normalisation, quote stripping, removal of characters
outside the word/space/hyphen class, whitespace-run collapsing,
hyphen/underscore-run collapsing, underscore trimming — to the stem
alone, substitutes the fixed default name when the pipeline empties the
stem, and re-appends the extension.  In particular the returned stem is
never empty, consists only of word characters (hence no whitespace and no
hyphens), neither begins nor ends with an underscore, and contains no two
adjacent hyphen/underscore characters.  As a Lean function of its inputs
it is pure by construction. -/
theorem sanitize_filename_spec (nfkc : List Char → List Char) (filename : List Char) :
    sanitize_filename nfkc filename
      = sanitize_stem nfkc (splitext filename).1 ++ (splitext filename).2
    ∧ (sanitize_core nfkc (splitext filename).1 = []
        → sanitize_stem nfkc (splitext filename).1 = "audio".toList)
    ∧ (sanitize_core nfkc (splitext filename).1 ≠ []
        → sanitize_stem nfkc (splitext filename).1
            = sanitize_core nfkc (splitext filename).1)
    ∧ sanitize_stem nfkc (splitext filename).1 ≠ []
    ∧ (∀ c ∈ sanitize_stem nfkc (splitext filename).1,
        isWordChar c = true ∧ isPySpace c = false ∧ c ≠ '-')
    ∧ (sanitize_stem nfkc (splitext filename).1).head? ≠ some '_'
    ∧ (sanitize_stem nfkc (splitext filename).1).getLast? ≠ some '_'
    ∧ (sanitize_stem nfkc (splitext filename).1).Chain'
        (fun a b => ¬(isDashUnd a = true ∧ isDashUnd b = true)) := by
  by_cases hemp : sanitize_core nfkc (splitext filename).1 = []
  · have hst : sanitize_stem nfkc (splitext filename).1 = "audio".toList := by
      unfold sanitize_stem
      rw [hemp]
      rfl
    refine ⟨rfl, fun _ => hst, fun hne => absurd hemp hne, ?_, ?_, ?_, ?_, ?_⟩
      <;> rw [hst]
    · decide
    · decide
    · decide
    · decide
    · exact List.chain'_cons.mpr ⟨by decide, List.chain'_cons.mpr ⟨by decide,
        List.chain'_cons.mpr ⟨by decide, List.chain'_cons.mpr ⟨by decide,
          List.chain'_singleton _⟩⟩⟩⟩
  · have hst : sanitize_stem nfkc (splitext filename).1
        = sanitize_core nfkc (splitext filename).1 := by
      unfold sanitize_stem
      rw [if_neg (by simp [List.isEmpty_iff, hemp])]
    refine ⟨rfl, fun he => absurd he hemp, fun _ => hst, ?_, ?_, ?_, ?_, ?_⟩
    · rw [hst]; exact hemp
    · rw [hst]; exact sanitize_core_mem nfkc _
    · rw [hst, sanitize_core_eq]
      intro h
      have := stripEnds_head? _ _ '_' h
      simp at this
    · rw [hst, sanitize_core_eq]
      intro h
      have := stripEnds_getLast? _ _ '_' h
      simp at this
    · rw [hst, sanitize_core_eq]
      exact chain'_stripEnds (fun a b h hc => h ⟨hc.2, hc.1⟩) _ _
        (collapseRuns_chain isDashUnd '_' _ false)

/-- Claim C10 (implicit frame effect): the sanitizer applies every
sanitization step to the stem only and re-appends the extension
completely unchanged, so every character of the extension — however
special or unsafe — survives into the returned name, of which the
extension is a verbatim suffix. -/
theorem extension_unchanged_frame (nfkc : List Char → List Char)
    (filename : List Char) :
    sanitize_filename nfkc filename
      = sanitize_stem nfkc (splitext filename).1 ++ (splitext filename).2
    ∧ (splitext filename).2 <:+ sanitize_filename nfkc filename
    ∧ (∀ c ∈ (splitext filename).2, c ∈ sanitize_filename nfkc filename) := by
  refine ⟨rfl, List.suffix_append _ _, ?_⟩
  intro c hc
  unfold sanitize_filename
  exact List.mem_append_right _ hc

/-- Witness for claim C8 at a concrete input. -/
theorem sanitize_filename_spec_witness :
    sanitize_stem (fun l => l) (splitext "a b.mp3".toList).1 ≠ []
    ∧ sanitize_filename (fun l => l) "a b.mp3".toList
        = sanitize_stem (fun l => l) (splitext "a b.mp3".toList).1
          ++ (splitext "a b.mp3".toList).2 :=
  ⟨(sanitize_filename_spec (fun l => l) "a b.mp3".toList).2.2.2.1,
   (sanitize_filename_spec (fun l => l) "a b.mp3".toList).1⟩

/-- Witness for claim C10 at a concrete input whose extension contains a
character the sanitizer would otherwise remove. -/
theorem extension_unchanged_frame_witness :
    (splitext "x.we?bm".toList).2 <:+ sanitize_filename (fun l => l) "x.we?bm".toList :=
  (extension_unchanged_frame (fun l => l) "x.we?bm".toList).2.1

end YoutubeMp3
